import Mathlib

/-!
# Pickr color suite — verification of the colorimetry engine

Shallow embedding of the color engine in `src/app/page.tsx`:
`calculateColorDetails` (RGB → hex / HSL / CMYK), `updateFromHSL`
(HSL → RGB), the WCAG contrast computation, the history
recording in `pickColor`, `extractPalette`, and the session-level state transitions.

JavaScript numbers are modelled by exact rationals (`ℚ`); `Math.round`
on the non-negative values arising here is `⌊q + 1/2⌋`.  The WCAG
gamma curve (`Math.pow (· , 2.4)`) is transcendental, so the contrast
analyzer is modelled over `ℝ` with real exponentiation.
-/

/-- JavaScript `Math.round` for the non-negative values arising in this
program: round half up, i.e. `⌊q + 1/2⌋`. -/
def jsRound (q : ℚ) : ℤ := ⌊q + 1/2⌋

/-! ## Hex formatting (`toHex` / template literal in `calculateColorDetails`) -/

/-- The sixteen lowercase hex digit characters, in value order
(`c.toString(16)` produces lowercase digits). -/
def hexDigitChars : List Char := "0123456789abcdef".toList

/-- The lowercase hex digit of a value `n < 16`. -/
def hexDigit (n : ℕ) : Char := hexDigitChars.getD n '0'

/-- Source `toHex = (c) => c.toString(16).padStart(2, '0')`: for a channel in
`[0, 255]` this is exactly the two lowercase hex digits of `c`. -/
def toHex (c : ℕ) : List Char := [hexDigit (c / 16), hexDigit (c % 16)]

/-- The hex field: the template literal joining toHex of the channels after a hash. -/
def hexString (r g b : ℕ) : String :=
  String.mk ('#' :: (toHex r ++ toHex g ++ toHex b))

/-- Numeric value of a lowercase hex digit character, as read back by
`parseInt(hex.slice(i, j), 16)` on converter-produced strings. -/
def hexVal (c : Char) : ℕ :=
  (hexDigitChars.indexOf c)

/-- Decoding a 7-character `#rrggbb` string back to its three channels,
as the palette / history swatch handlers do with
`parseInt(hex.slice(1,3),16)` (and `(3,5)`, `(5,7)`). -/
def decodeHex (s : String) : Option (ℕ × ℕ × ℕ) :=
  match s.toList with
  | ['#', c1, c2, c3, c4, c5, c6] =>
      some (16 * hexVal c1 + hexVal c2, 16 * hexVal c3 + hexVal c4, 16 * hexVal c5 + hexVal c6)
  | _ => none

/-! ## HSL computation inside `calculateColorDetails` -/

/-- Channel normalised to `[0,1]`: `r_ = r / 255`. -/
def normChan (c : ℕ) : ℚ := (c : ℚ) / 255

/-- Source `max = Math.max(r_, g_, b_)`. -/
def maxChan (r g b : ℕ) : ℚ := max (normChan r) (max (normChan g) (normChan b))

/-- Source `min = Math.min(r_, g_, b_)`. -/
def minChan (r g b : ℕ) : ℚ := min (normChan r) (min (normChan g) (normChan b))

/-- Source `l = (max + min) / 2`. -/
def lightVal (r g b : ℕ) : ℚ := (maxChan r g b + minChan r g b) / 2

/-- Saturation `s`: `0` in the achromatic case, otherwise
`d / (2 - max - min)` when `l > 0.5`, else `d / (max + min)`
(with `d = max - min` inlined). -/
def satVal (r g b : ℕ) : ℚ :=
  if maxChan r g b = minChan r g b then 0
  else if lightVal r g b > 1/2 then
    (maxChan r g b - minChan r g b) / (2 - maxChan r g b - minChan r g b)
  else (maxChan r g b - minChan r g b) / (maxChan r g b + minChan r g b)

/-- The hue value before the final `h /= 6`: the 6-branch formula keyed
on which channel is the maximum, tested in source order (`max === r_`,
then `max === g_`, else `b_`), with `d = max - min` inlined. -/
def hueSix (r g b : ℕ) : ℚ :=
  if maxChan r g b = normChan r then
    (normChan g - normChan b) / (maxChan r g b - minChan r g b) +
      (if normChan g < normChan b then 6 else 0)
  else if maxChan r g b = normChan g then
    (normChan b - normChan r) / (maxChan r g b - minChan r g b) + 2
  else (normChan r - normChan g) / (maxChan r g b - minChan r g b) + 4

/-- Hue `h` after the final `h /= 6`: `0` in the achromatic case, otherwise
`hueSix / 6`. -/
def hueVal (r g b : ℕ) : ℚ :=
  if maxChan r g b = minChan r g b then 0 else hueSix r g b / 6

/-! ## CMYK computation inside `calculateColorDetails` -/

/-- Source `k = 1 - Math.max(r_, g_, b_)`. -/
def kVal (r g b : ℕ) : ℚ := 1 - maxChan r g b

/-- One of `c`, `m`, `y`: `(1 - ch_ - k) / (1 - k) || 0`.  When `k = 1`
(pure black) the JavaScript division is `0 / 0 = NaN` and `|| 0`
replaces it by `0`; otherwise the quotient is returned (a quotient that
is exactly `0` is also mapped to `0` by `|| 0`, the same value). -/
def cmyVal (ch r g b : ℕ) : ℚ :=
  if kVal r g b = 1 then 0
  else (1 - normChan ch - kVal r g b) / (1 - kVal r g b)

/-- The four rounded percentage components `(C, M, Y, K)` of the `cmyk`
string. -/
def cmykInts (r g b : ℕ) : ℤ × ℤ × ℤ × ℤ :=
  (jsRound (cmyVal r r g b * 100), jsRound (cmyVal g r g b * 100),
   jsRound (cmyVal b r g b * 100), jsRound (kVal r g b * 100))

/-- The cmyk template literal, comma-space separated. -/
def cmykString (r g b : ℕ) : String :=
  toString (cmykInts r g b).1 ++ ", " ++ toString (cmykInts r g b).2.1 ++ ", " ++
    toString (cmykInts r g b).2.2.1 ++ ", " ++ toString (cmykInts r g b).2.2.2

/-! ## The `ColorData` record and the converter -/

/-- The `rgb` field of `ColorData`. -/
structure RGB where
  r : ℕ
  g : ℕ
  b : ℕ
deriving DecidableEq, Repr

/-- The `hsl` field of `ColorData` (rounded integer components). -/
structure HSL where
  h : ℤ
  s : ℤ
  l : ℤ
deriving DecidableEq, Repr

/-- The `ColorData` interface of `page.tsx`. -/
structure ColorData where
  hex : String
  rgb : RGB
  hsl : HSL
  cmyk : String
deriving DecidableEq, Repr

/-- Converter `calculateColorDetails(r, g, b)` producing the full
`ColorData` record. -/
def calculateColorDetails (r g b : ℕ) : ColorData :=
  { hex := hexString r g b
    rgb := ⟨r, g, b⟩
    hsl := ⟨jsRound (hueVal r g b * 360), jsRound (satVal r g b * 100),
            jsRound (lightVal r g b * 100)⟩
    cmyk := cmykString r g b }

/-! ## `updateFromHSL`: the HSL → RGB direction -/

/-- The per-channel function `f(n)` of `updateFromHSL`, with
`k = (n + h / 30) % 12` (all quantities non-negative on the slider
domain, so the JavaScript remainder is the mathematical one). -/
def hslF (h s l : ℚ) (n : ℚ) : ℚ :=
  let s' := s / 100
  let l' := l / 100
  let a := s' * min l' (1 - l')
  let x := n + h / 30
  let k := x - 12 * (⌊x / 12⌋ : ℚ)
  l' - a * max (min (min (k - 3) (9 - k)) 1) (-1)

/-- The RGB triple computed by `updateFromHSL` before it is fed back
into `calculateColorDetails`: `Math.round(f(0|8|4) * 255)`. -/
def hslToRgb (h s l : ℚ) : ℤ × ℤ × ℤ :=
  (jsRound (hslF h s l 0 * 255), jsRound (hslF h s l 8 * 255), jsRound (hslF h s l 4 * 255))

/-- The `hsl` field obtained by running `updateFromHSL` and reading back
the `hsl` of the converter (the round-trip of the spec). -/
def roundTripHSL (h s l : ℚ) : HSL :=
  (calculateColorDetails (hslToRgb h s l).1.toNat (hslToRgb h s l).2.1.toNat
    (hslToRgb h s l).2.2.toNat).hsl

/-! ## The contrast analyzer (`contrast` memo)

`getL` applies the WCAG piecewise channel linearisation; the gamma
branch `Math.pow((s + 0.055) / 1.055, 2.4)` is a real (transcendental)
power, so this part of the engine is modelled over `ℝ`. -/

/-- Source `getL(c)`: WCAG linearisation of a channel value. -/
noncomputable def getL (c : ℕ) : ℝ :=
  let s : ℝ := (c : ℝ) / 255
  if s ≤ 0.03928 then s / 12.92 else ((s + 0.055) / 1.055) ^ (2.4 : ℝ)

/-- Luminance `L = 0.2126 * getL(r) + 0.7152 * getL(g) + 0.0722 * getL(b)`. -/
noncomputable def luminance (r g b : ℕ) : ℝ :=
  0.2126 * getL r + 0.7152 * getL g + 0.0722 * getL b

/-- Field `ratio`: contrast against black, `(L + 0.05) / 0.05`. -/
noncomputable def ratioVsBlack (r g b : ℕ) : ℝ := (luminance r g b + 0.05) / 0.05

/-- Field `onWhite`: contrast against white, `1.05 / (L + 0.05)`. -/
noncomputable def ratioVsWhite (r g b : ℕ) : ℝ := 1.05 / (luminance r g b + 0.05)

/-- Flag `isDark = L < 0.5`. -/
def isDark (r g b : ℕ) : Prop := luminance r g b < 1/2

/-! ## Selection history (the history update in `pickColor`) -/

/-- The history update of `pickColor`:
`if (!history.includes(hex)) setHistory(prev => [hex, ...prev].slice(0, 12))`. -/
def recordHistory (history : List String) (hex : String) : List String :=
  if hex ∈ history then history else (hex :: history).take 12

/-! ## Palette extraction (`extractPalette`) -/

/-- The fixed ordered sample points of `extractPalette`. -/
def samplePoints : List (ℚ × ℚ) := [(0.2, 0.2), (0.5, 0.2), (0.8, 0.5), (0.3, 0.8), (0.7, 0.7)]

/-- A decoded image: a pixel accessor returning the RGB channels at
integer native coordinates (the `getImageData(x, y, 1, 1)` read; `x`,
`y` are truncated to integers by the canvas API, which on the
non-negative values here is the floor). -/
def PixelBuffer := ℕ → ℕ → ℕ × ℕ × ℕ

/-- The body of the `points.map` callback in `extractPalette`: read the
pixel at native coordinates `(⌊width * px⌋, ⌊height * py⌋)` (the canvas
API truncates the fractional coordinates) and convert it to hex. -/
def sampleHex (buf : PixelBuffer) (w h : ℕ) (p : ℚ × ℚ) : String :=
  let d := buf (⌊(w : ℚ) * p.1⌋).toNat (⌊(h : ℚ) * p.2⌋).toNat
  (calculateColorDetails d.1 d.2.1 d.2.2).hex

/-- Function `extractPalette`: sample each configured point and convert to hex,
in sample-point order. -/
def extractPalette (buf : PixelBuffer) (w h : ℕ) : List String :=
  samplePoints.map (sampleHex buf w h)

/-! ## The interactive session

State and transitions of `ProfessionalColorSuite`: the four `useState`
values owned by the session, and the event handlers that update them.
Pixel sampling geometry is abstracted: a pick event carries the RGB
channels read from the canvas. -/

/-- The session state: `image`, `colorData`, `palette`, `history`. -/
structure SessionState where
  image : Option String
  colorData : ColorData
  palette : List String
  history : List String

/-- The hand-assembled initial `colorData` literal passed to `useState`. -/
def initialColorData : ColorData :=
  { hex := "#6366f1"
    rgb := ⟨99, 102, 241⟩
    hsl := ⟨239, 84, 67⟩
    cmyk := "60, 58, 0, 5" }

/-- The initial session state (component mount). -/
def initialState : SessionState :=
  { image := none, colorData := initialColorData, palette := [], history := [] }

/-- The session events. `loadImage` is a file-input / paste image load;
`imageLoaded` is the `<img onLoad>` firing `extractPalette`;
`escapeKey`, `restartProject` and `resetProject` all run
`setImage(null)`; `pick` is a canvas click carrying the sampled pixel;
`paletteClick` / `historyClick` carry the hex of the clicked swatch;
`adjust` is a slider change driving `updateFromHSL`. -/
inductive Event where
  | loadImage (img : String)
  | imageLoaded (buf : PixelBuffer) (w hgt : ℕ)
  | escapeKey
  | restartProject
  | resetProject
  | pick (r g b : ℕ)
  | paletteClick (hex : String)
  | historyClick (hex : String)
  | adjust (h s l : ℚ)

/-- The channels a swatch click handler reads back with
`parseInt(hex.slice(1,3),16)` (idem `(3,5)`, `(5,7)`).  Swatch hexes are
always converter-produced 7-character `#rrggbb` strings; on anything
else this model returns `(0,0,0)` (the handlers are never invoked on
such strings). -/
def swatchChannels (hex : String) : ℕ × ℕ × ℕ :=
  (decodeHex hex).getD (0, 0, 0)

/-- One session transition.  Handlers attached to elements that only
render while an image is present (the canvas, the swatches, the reset
buttons) are no-ops when `image` is `none`; the Escape handler also
explicitly guards on `image`. -/
def step (e : Event) (st : SessionState) : SessionState :=
  match e with
  | .loadImage img => { st with image := some img }
  | .imageLoaded buf w hgt =>
      if st.image.isSome then { st with palette := extractPalette buf w hgt } else st
  | .escapeKey | .restartProject | .resetProject =>
      if st.image.isSome then { st with image := none } else st
  | .pick r g b =>
      if st.image.isSome then
        { st with
            colorData := calculateColorDetails r g b,
            history := recordHistory st.history (calculateColorDetails r g b).hex }
      else st
  | .paletteClick hex | .historyClick hex =>
      if st.image.isSome then
        { st with
            colorData := calculateColorDetails (swatchChannels hex).1
              (swatchChannels hex).2.1 (swatchChannels hex).2.2 }
      else st
  | .adjust h s l =>
      { st with
          colorData := calculateColorDetails (hslToRgb h s l).1.toNat
            (hslToRgb h s l).2.1.toNat (hslToRgb h s l).2.2.toNat }

/-! ## Helper lemmas: `jsRound` and channel bounds -/

lemma jsRound_nonneg {q : ℚ} (h : 0 ≤ q) : 0 ≤ jsRound q := by
  refine Int.le_floor.mpr ?_
  push_cast
  linarith

lemma jsRound_le {q : ℚ} {n : ℤ} (h : q ≤ (n : ℚ)) : jsRound q ≤ n := by
  have h1 : ((jsRound q : ℤ) : ℚ) ≤ q + 1/2 := Int.floor_le _
  have h2 : ((jsRound q : ℤ) : ℚ) < ((n + 1 : ℤ) : ℚ) := by push_cast; linarith
  have h3 : jsRound q < n + 1 := by exact_mod_cast h2
  omega

lemma normChan_nonneg (c : ℕ) : 0 ≤ normChan c :=
  div_nonneg (Nat.cast_nonneg c) (by norm_num)

lemma normChan_le_one {c : ℕ} (hc : c ≤ 255) : normChan c ≤ 1 := by
  rw [normChan, div_le_one (by norm_num)]
  exact_mod_cast hc

lemma normChan_le_maxChan_left (r g b : ℕ) : normChan r ≤ maxChan r g b := le_max_left _ _

lemma normChan_le_maxChan_mid (r g b : ℕ) : normChan g ≤ maxChan r g b :=
  le_trans (le_max_left _ _) (le_max_right _ _)

lemma normChan_le_maxChan_right (r g b : ℕ) : normChan b ≤ maxChan r g b :=
  le_trans (le_max_right _ _) (le_max_right _ _)

lemma minChan_le_normChan_left (r g b : ℕ) : minChan r g b ≤ normChan r := min_le_left _ _

lemma minChan_le_normChan_mid (r g b : ℕ) : minChan r g b ≤ normChan g :=
  le_trans (min_le_right _ _) (min_le_left _ _)

lemma minChan_le_normChan_right (r g b : ℕ) : minChan r g b ≤ normChan b :=
  le_trans (min_le_right _ _) (min_le_right _ _)

lemma minChan_le_maxChan (r g b : ℕ) : minChan r g b ≤ maxChan r g b :=
  le_trans (min_le_left _ _) (le_max_left _ _)

lemma minChan_nonneg (r g b : ℕ) : 0 ≤ minChan r g b :=
  le_min (normChan_nonneg r) (le_min (normChan_nonneg g) (normChan_nonneg b))

lemma maxChan_le_one {r g b : ℕ} (hr : r ≤ 255) (hg : g ≤ 255) (hb : b ≤ 255) :
    maxChan r g b ≤ 1 :=
  max_le (normChan_le_one hr) (max_le (normChan_le_one hg) (normChan_le_one hb))

lemma maxChan_nonneg (r g b : ℕ) : 0 ≤ maxChan r g b :=
  le_trans (normChan_nonneg r) (le_max_left _ _)

lemma maxChan_cases (r g b : ℕ) :
    maxChan r g b = normChan r ∨ maxChan r g b = normChan g ∨ maxChan r g b = normChan b := by
  unfold maxChan
  rcases max_choice (normChan r) (max (normChan g) (normChan b)) with h | h
  · exact Or.inl h
  · rcases max_choice (normChan g) (normChan b) with h2 | h2 <;> rw [h, h2]
    · exact Or.inr (Or.inl rfl)
    · exact Or.inr (Or.inr rfl)

/-! ## Helper lemmas: bounds for the HSL / CMYK components -/

lemma chan_sub_div_le_one {x y mx mn : ℚ} (hx : x ≤ mx) (hy : mn ≤ y) (hd : 0 < mx - mn) :
    (x - y) / (mx - mn) ≤ 1 := by
  rw [div_le_one hd]
  linarith

lemma neg_one_le_chan_sub_div {x y mx mn : ℚ} (hx : mn ≤ x) (hy : y ≤ mx) (hd : 0 < mx - mn) :
    -1 ≤ (x - y) / (mx - mn) := by
  rw [le_div_iff₀ hd]
  linarith

lemma hueSix_bounds (r g b : ℕ) (hne : maxChan r g b ≠ minChan r g b) :
    0 ≤ hueSix r g b ∧ hueSix r g b ≤ 6 := by
  have hlt : minChan r g b < maxChan r g b :=
    lt_of_le_of_ne (minChan_le_maxChan r g b) (fun he => hne he.symm)
  have hd : 0 < maxChan r g b - minChan r g b := by linarith
  unfold hueSix
  split_ifs with h1 h2 h3
  · -- max = r, g < b
    have hle : (normChan g - normChan b) / (maxChan r g b - minChan r g b) ≤ 0 :=
      div_nonpos_of_nonpos_of_nonneg (by linarith) (by linarith)
    have hge : -1 ≤ (normChan g - normChan b) / (maxChan r g b - minChan r g b) :=
      neg_one_le_chan_sub_div (minChan_le_normChan_mid r g b)
        (normChan_le_maxChan_right r g b) hd
    constructor <;> linarith
  · -- max = r, g ≥ b
    have hge : 0 ≤ (normChan g - normChan b) / (maxChan r g b - minChan r g b) :=
      div_nonneg (by linarith [not_lt.mp h2]) (le_of_lt hd)
    have hle : (normChan g - normChan b) / (maxChan r g b - minChan r g b) ≤ 1 :=
      chan_sub_div_le_one (normChan_le_maxChan_mid r g b)
        (minChan_le_normChan_right r g b) hd
    constructor <;> linarith
  · -- max = g
    have hge : -1 ≤ (normChan b - normChan r) / (maxChan r g b - minChan r g b) :=
      neg_one_le_chan_sub_div (minChan_le_normChan_right r g b)
        (normChan_le_maxChan_left r g b) hd
    have hle : (normChan b - normChan r) / (maxChan r g b - minChan r g b) ≤ 1 :=
      chan_sub_div_le_one (normChan_le_maxChan_right r g b)
        (minChan_le_normChan_left r g b) hd
    constructor <;> linarith
  · -- max = b
    have hge : -1 ≤ (normChan r - normChan g) / (maxChan r g b - minChan r g b) :=
      neg_one_le_chan_sub_div (minChan_le_normChan_left r g b)
        (normChan_le_maxChan_mid r g b) hd
    have hle : (normChan r - normChan g) / (maxChan r g b - minChan r g b) ≤ 1 :=
      chan_sub_div_le_one (normChan_le_maxChan_left r g b)
        (minChan_le_normChan_mid r g b) hd
    constructor <;> linarith

lemma hueVal_bounds (r g b : ℕ) : 0 ≤ hueVal r g b ∧ hueVal r g b ≤ 1 := by
  unfold hueVal
  split_ifs with h0
  · norm_num
  · obtain ⟨h1, h2⟩ := hueSix_bounds r g b h0
    constructor <;> [positivity; linarith]

lemma lightVal_bounds {r g b : ℕ} (hr : r ≤ 255) (hg : g ≤ 255) (hb : b ≤ 255) :
    0 ≤ lightVal r g b ∧ lightVal r g b ≤ 1 := by
  have h1 := maxChan_nonneg r g b
  have h2 := maxChan_le_one hr hg hb
  have h3 := minChan_nonneg r g b
  have h4 := le_trans (minChan_le_maxChan r g b) h2
  unfold lightVal
  constructor <;> linarith

lemma satVal_bounds {r g b : ℕ} (hr : r ≤ 255) (hg : g ≤ 255) (hb : b ≤ 255) :
    0 ≤ satVal r g b ∧ satVal r g b ≤ 1 := by
  have hmx1 := maxChan_le_one hr hg hb
  have hmn0 := minChan_nonneg r g b
  have hmn1 := le_trans (minChan_le_maxChan r g b) hmx1
  unfold satVal
  split_ifs with h0 hl
  · norm_num
  · -- l > 1/2 branch
    have hlt : minChan r g b < maxChan r g b :=
      lt_of_le_of_ne (minChan_le_maxChan r g b) (fun he => h0 he.symm)
    have hsum : 1 < maxChan r g b + minChan r g b := by
      have h5 := hl
      unfold lightVal at h5
      linarith
    have hden : 0 < 2 - maxChan r g b - minChan r g b := by
      rcases lt_or_le (maxChan r g b + minChan r g b) 2 with hlt2 | hge2
      · linarith
      · exfalso
        have hmn : (1:ℚ) ≤ minChan r g b := by linarith
        have hmxe : maxChan r g b = 1 :=
          le_antisymm hmx1 (le_trans hmn (minChan_le_maxChan r g b))
        have hmne : minChan r g b = 1 := le_antisymm hmn1 hmn
        exact h0 (hmxe.trans hmne.symm)
    constructor
    · exact div_nonneg (by linarith) (le_of_lt hden)
    · rw [div_le_one hden]
      linarith
  · -- l ≤ 1/2 branch
    have hlt : minChan r g b < maxChan r g b :=
      lt_of_le_of_ne (minChan_le_maxChan r g b) (fun he => h0 he.symm)
    have hden : 0 < maxChan r g b + minChan r g b := by
      have h6 : 0 < maxChan r g b := lt_of_le_of_lt hmn0 hlt
      linarith
    constructor
    · exact div_nonneg (by linarith) (le_of_lt hden)
    · rw [div_le_one hden]
      linarith

lemma kVal_bounds {r g b : ℕ} (hr : r ≤ 255) (hg : g ≤ 255) (hb : b ≤ 255) :
    0 ≤ kVal r g b ∧ kVal r g b ≤ 1 := by
  have h1 := maxChan_nonneg r g b
  have h2 := maxChan_le_one hr hg hb
  unfold kVal
  constructor <;> linarith

lemma cmyVal_bounds {ch r g b : ℕ} (hch : normChan ch ≤ maxChan r g b) :
    0 ≤ cmyVal ch r g b ∧ cmyVal ch r g b ≤ 1 := by
  have hch0 := normChan_nonneg ch
  simp only [cmyVal, kVal]
  split_ifs with h0
  · norm_num
  · have hmx : maxChan r g b ≠ 0 := fun he => h0 (by rw [he]; ring)
    have hmxpos : 0 < maxChan r g b :=
      lt_of_le_of_ne (maxChan_nonneg r g b) (Ne.symm hmx)
    have hnum : (1:ℚ) - normChan ch - (1 - maxChan r g b) = maxChan r g b - normChan ch := by
      ring
    have hden : (1:ℚ) - (1 - maxChan r g b) = maxChan r g b := by ring
    rw [hnum, hden]
    constructor
    · exact div_nonneg (by linarith) (by linarith)
    · rw [div_le_one hmxpos]
      linarith

/-! ## Helper lemmas: hex encoding and decoding -/

lemma hexDigit_mem : ∀ n : ℕ, n < 16 → hexDigit n ∈ hexDigitChars := by decide

lemma hexVal_hexDigit : ∀ n : ℕ, n < 16 → hexVal (hexDigit n) = n := by decide

lemma hexString_toList (r g b : ℕ) :
    (hexString r g b).toList =
      ['#', hexDigit (r / 16), hexDigit (r % 16), hexDigit (g / 16), hexDigit (g % 16),
       hexDigit (b / 16), hexDigit (b % 16)] := rfl

lemma decodeHex_hexString {r g b : ℕ} (hr : r ≤ 255) (hg : g ≤ 255) (hb : b ≤ 255) :
    decodeHex (hexString r g b) = some (r, g, b) := by
  have hr1 : r / 16 < 16 := by omega
  have hr2 : r % 16 < 16 := by omega
  have hg1 : g / 16 < 16 := by omega
  have hg2 : g % 16 < 16 := by omega
  have hb1 : b / 16 < 16 := by omega
  have hb2 : b % 16 < 16 := by omega
  show (match (hexString r g b).toList with
    | ['#', c1, c2, c3, c4, c5, c6] =>
        some (16 * hexVal c1 + hexVal c2, 16 * hexVal c3 + hexVal c4, 16 * hexVal c5 + hexVal c6)
    | _ => none) = some (r, g, b)
  rw [hexString_toList]
  simp only [hexVal_hexDigit _ hr1, hexVal_hexDigit _ hr2, hexVal_hexDigit _ hg1,
    hexVal_hexDigit _ hg2, hexVal_hexDigit _ hb1, hexVal_hexDigit _ hb2]
  have er : 16 * (r / 16) + r % 16 = r := by omega
  have eg : 16 * (g / 16) + g % 16 = g := by omega
  have eb : 16 * (b / 16) + b % 16 = b := by omega
  rw [er, eg, eb]

/-- Claim C1: for every input triple of channels in `[0, 255]`, the
`hex` field of the converter's output is a 7-character string, `'#'`
followed by six lowercase hex digits (each channel padded to two
digits), and decoding it back yields exactly `(r, g, b)`. -/
theorem hex_wellformed_and_roundtrips (r g b : ℕ)
    (hr : r ≤ 255) (hg : g ≤ 255) (hb : b ≤ 255) :
    (calculateColorDetails r g b).hex.length = 7 ∧
    (calculateColorDetails r g b).hex.toList.head? = some '#' ∧
    (∀ c ∈ (calculateColorDetails r g b).hex.toList.tail, c ∈ hexDigitChars) ∧
    decodeHex (calculateColorDetails r g b).hex = some (r, g, b) := by
  have hhex : (calculateColorDetails r g b).hex = hexString r g b := rfl
  rw [hhex]
  refine ⟨rfl, rfl, ?_, decodeHex_hexString hr hg hb⟩
  intro c hc
  rw [hexString_toList] at hc
  simp only [List.tail_cons, List.mem_cons, List.not_mem_nil, or_false] at hc
  rcases hc with h | h | h | h | h | h <;> rw [h] <;> exact hexDigit_mem _ (by omega)

/-- Claim C1 witness: the theorem instantiated at the default color
`(99, 102, 241)`. -/
theorem hex_wellformed_and_roundtrips_witness :
    (calculateColorDetails 99 102 241).hex.length = 7 ∧
    (calculateColorDetails 99 102 241).hex.toList.head? = some '#' ∧
    decodeHex (calculateColorDetails 99 102 241).hex = some (99, 102, 241) :=
  ⟨(hex_wellformed_and_roundtrips 99 102 241 (by decide) (by decide) (by decide)).1,
   (hex_wellformed_and_roundtrips 99 102 241 (by decide) (by decide) (by decide)).2.1,
   (hex_wellformed_and_roundtrips 99 102 241 (by decide) (by decide) (by decide)).2.2.2⟩

/-- Claim C3 counterexample: on the valid input `(255, 0, 1)` the hue
component is exactly `360`, not strictly below `360`:
`h = round(360 * (6 - 1/255) / 6) = round(359.7647…) = 360`. -/
theorem hue_reaches_360 : (calculateColorDetails 255 0 1).hsl.h = 360 := by
  with_unfolding_all decide

/-- Claim C3 (amended): for channels in `[0, 255]` the hue component is
an integer in `[0, 360]` — the value `360` is attained (see
`hue_reaches_360`), since the code rounds after scaling the hue
fraction by 360 — and saturation and lightness are integers in
`[0, 100]`. -/
theorem hsl_fields_in_range (r g b : ℕ) (hr : r ≤ 255) (hg : g ≤ 255) (hb : b ≤ 255) :
    0 ≤ (calculateColorDetails r g b).hsl.h ∧ (calculateColorDetails r g b).hsl.h ≤ 360 ∧
    0 ≤ (calculateColorDetails r g b).hsl.s ∧ (calculateColorDetails r g b).hsl.s ≤ 100 ∧
    0 ≤ (calculateColorDetails r g b).hsl.l ∧ (calculateColorDetails r g b).hsl.l ≤ 100 := by
  obtain ⟨hh0, hh1⟩ := hueVal_bounds r g b
  obtain ⟨hs0, hs1⟩ := satVal_bounds hr hg hb
  obtain ⟨hl0, hl1⟩ := lightVal_bounds hr hg hb
  have eh : (calculateColorDetails r g b).hsl.h = jsRound (hueVal r g b * 360) := rfl
  have es : (calculateColorDetails r g b).hsl.s = jsRound (satVal r g b * 100) := rfl
  have el : (calculateColorDetails r g b).hsl.l = jsRound (lightVal r g b * 100) := rfl
  rw [eh, es, el]
  refine ⟨jsRound_nonneg (by nlinarith), jsRound_le (by push_cast; nlinarith),
    jsRound_nonneg (by nlinarith), jsRound_le (by push_cast; nlinarith),
    jsRound_nonneg (by nlinarith), jsRound_le (by push_cast; nlinarith)⟩

/-- Claim C3 witness: the range theorem instantiated at `(255, 0, 1)`,
the input where hue attains the boundary value `360`. -/
theorem hsl_fields_in_range_witness :
    0 ≤ (calculateColorDetails 255 0 1).hsl.h ∧ (calculateColorDetails 255 0 1).hsl.h ≤ 360 ∧
    0 ≤ (calculateColorDetails 255 0 1).hsl.s ∧ (calculateColorDetails 255 0 1).hsl.s ≤ 100 ∧
    0 ≤ (calculateColorDetails 255 0 1).hsl.l ∧ (calculateColorDetails 255 0 1).hsl.l ≤ 100 :=
  hsl_fields_in_range 255 0 1 (by decide) (by decide) (by decide)

/-! ## Helper lemmas: the selection history -/

lemma take_cons_take {α : Type} (x : α) (t : List α) (n : ℕ) :
    (x :: t.take n).take n = (x :: t).take n := by
  cases n with
  | zero => rfl
  | succ m =>
      rw [List.take_succ_cons, List.take_succ_cons, List.take_take,
        min_eq_left (Nat.le_succ m)]

lemma foldl_recordHistory_nodup (l : List String) :
    l.Nodup → l.foldl recordHistory [] = l.reverse.take 12 := by
  induction l using List.reverseRecOn with
  | nil => intro _; rfl
  | append_singleton xs x ih =>
      intro hnd
      obtain ⟨hnd1, -, hdisj⟩ := List.nodup_append.mp hnd
      have hx : x ∉ xs := fun hmem => hdisj hmem (List.mem_singleton.mpr rfl)
      rw [List.foldl_append, List.foldl_cons, List.foldl_nil, ih hnd1]
      have hmem : x ∉ xs.reverse.take 12 :=
        fun hm => hx (List.mem_reverse.mp (List.mem_of_mem_take hm))
      rw [recordHistory, if_neg hmem, List.reverse_append, List.reverse_singleton,
        List.singleton_append, take_cons_take]

/-- Claim C4: recording a hex already present leaves the history
unchanged (same list, hence same length and order, no duplicate);
recording a new hex prepends it and truncates to capacity 12; recording
13 distinct hexes in sequence from an empty history leaves exactly the
12 most recent, newest first. -/
theorem history_record_correct :
    (∀ (h : List String) (hex : String), hex ∈ h → recordHistory h hex = h) ∧
    (∀ (h : List String) (hex : String), hex ∉ h →
        recordHistory h hex = (hex :: h).take 12) ∧
    (∀ hexes : List String, hexes.Nodup → hexes.length = 13 →
        hexes.foldl recordHistory [] = hexes.reverse.take 12) := by
  refine ⟨?_, ?_, ?_⟩
  · intro h hex hm
    rw [recordHistory, if_pos hm]
  · intro h hex hm
    rw [recordHistory, if_neg hm]
  · intro hexes hnd _
    exact foldl_recordHistory_nodup hexes hnd

/-- Claim C4 witness: the three parts at concrete histories — a
duplicate pick, a fresh pick, and a 13-pick session keeping the 12
newest. -/
theorem history_record_correct_witness :
    recordHistory ["#ffffff"] "#ffffff" = ["#ffffff"] ∧
    recordHistory ["#000000"] "#ffffff" = ("#ffffff" :: ["#000000"]).take 12 ∧
    (["#c01", "#c02", "#c03", "#c04", "#c05", "#c06", "#c07", "#c08", "#c09", "#c10",
      "#c11", "#c12", "#c13"].foldl recordHistory [] =
      ["#c01", "#c02", "#c03", "#c04", "#c05", "#c06", "#c07", "#c08", "#c09", "#c10",
       "#c11", "#c12", "#c13"].reverse.take 12) :=
  ⟨history_record_correct.1 _ _ (by decide),
   history_record_correct.2.1 _ _ (by decide),
   history_record_correct.2.2 _ (by decide) (by decide)⟩

/-! ## Session-level theorems -/

/-- Claim C5 counterexample: with an image loaded and one entry in the
history, pressing Escape (a session reset) leaves the history
untouched — it is not cleared to empty as the claim requires.  The
same `setImage(null)` is what Restart Project and Reset Project run,
and loading a new image never touches the history either. -/
theorem reset_does_not_clear_history :
    (step Event.escapeKey
      { image := some "img", colorData := initialColorData, palette := [],
        history := ["#ffffff"] }).history ≠ [] := by
  decide

/-- Claim C5 (amended): the history is empty at component mount, and no
session-reset or image-load transition changes it: new image loads,
palette extraction, Escape, Restart Project, Reset Project, swatch
clicks and slider adjustments all leave the history exactly as it was
(in particular, none of them clears it).  Only a pick transition
modifies the history. -/
theorem history_untouched_by_non_pick_events :
    initialState.history = [] ∧
    (∀ (st : SessionState) (img : String), (step (Event.loadImage img) st).history = st.history) ∧
    (∀ (st : SessionState) (buf : PixelBuffer) (w hgt : ℕ),
        (step (Event.imageLoaded buf w hgt) st).history = st.history) ∧
    (∀ st : SessionState, (step Event.escapeKey st).history = st.history) ∧
    (∀ st : SessionState, (step Event.restartProject st).history = st.history) ∧
    (∀ st : SessionState, (step Event.resetProject st).history = st.history) ∧
    (∀ (st : SessionState) (hex : String), (step (Event.paletteClick hex) st).history = st.history) ∧
    (∀ (st : SessionState) (hex : String), (step (Event.historyClick hex) st).history = st.history) ∧
    (∀ (st : SessionState) (h s l : ℚ), (step (Event.adjust h s l) st).history = st.history) := by
  refine ⟨rfl, fun st img => rfl, ?_, ?_, ?_, ?_, ?_, ?_, fun st h s l => rfl⟩
  · intro st buf w hgt
    simp only [step]
    split_ifs <;> rfl
  · intro st
    simp only [step]
    split_ifs <;> rfl
  · intro st
    simp only [step]
    split_ifs <;> rfl
  · intro st
    simp only [step]
    split_ifs <;> rfl
  · intro st hex
    simp only [step]
    split_ifs <;> rfl
  · intro st hex
    simp only [step]
    split_ifs <;> rfl

/-- Claim C10: clicking a palette or history swatch carrying a
converter-produced hex replaces `colorData` by the converter output for
the channels of that hex and changes nothing else (in particular the history
is unchanged); conversely, the only event kind whose transition can
change the history is a canvas pick. -/
theorem swatch_click_updates_color_only (st : SessionState) (r g b : ℕ)
    (hr : r ≤ 255) (hg : g ≤ 255) (hb : b ≤ 255) (him : st.image.isSome) :
    step (Event.paletteClick (calculateColorDetails r g b).hex) st =
      { st with colorData := calculateColorDetails r g b } ∧
    step (Event.historyClick (calculateColorDetails r g b).hex) st =
      { st with colorData := calculateColorDetails r g b } ∧
    (∀ (e : Event) (st' : SessionState),
        (step e st').history ≠ st'.history → ∃ p q w, e = Event.pick p q w) := by
  have hsw : swatchChannels (calculateColorDetails r g b).hex = (r, g, b) := by
    have hd : decodeHex (calculateColorDetails r g b).hex = some (r, g, b) :=
      decodeHex_hexString hr hg hb
    rw [swatchChannels, hd]
    rfl
  refine ⟨?_, ?_, ?_⟩
  · simp only [step, him, if_true, hsw]
  · simp only [step, him, if_true, hsw]
  · intro e st' hne
    cases e with
    | pick p q w => exact ⟨p, q, w, rfl⟩
    | loadImage img => exact absurd rfl hne
    | imageLoaded buf w hgt =>
        exfalso
        apply hne
        simp only [step]
        split_ifs <;> rfl
    | escapeKey =>
        exfalso
        apply hne
        simp only [step]
        split_ifs <;> rfl
    | restartProject =>
        exfalso
        apply hne
        simp only [step]
        split_ifs <;> rfl
    | resetProject =>
        exfalso
        apply hne
        simp only [step]
        split_ifs <;> rfl
    | paletteClick hex =>
        exfalso
        apply hne
        simp only [step]
        split_ifs <;> rfl
    | historyClick hex =>
        exfalso
        apply hne
        simp only [step]
        split_ifs <;> rfl
    | adjust h s l => exact absurd rfl hne

/-- Claim C10 witness: a palette-swatch click for the hex of the default
color on a session with an image loaded and a non-trivial history. -/
theorem swatch_click_updates_color_only_witness :
    step (Event.paletteClick (calculateColorDetails 99 102 241).hex)
      { image := some "img", colorData := calculateColorDetails 0 0 0, palette := [],
        history := ["#000000"] } =
      { image := some "img", colorData := calculateColorDetails 99 102 241, palette := [],
        history := ["#000000"] } :=
  (swatch_click_updates_color_only
    { image := some "img", colorData := calculateColorDetails 0 0 0, palette := [],
      history := ["#000000"] }
    99 102 241 (by decide) (by decide) (by decide) rfl).1

/-! ## Palette extraction theorem -/

/-- Claim C6: for any pixel buffer and positive dimensions, the palette
has exactly one entry per configured sample point (5 entries,
regardless of image size), the i-th entry being the hex sampled at the
i-th point of the fixed ordered list, with no deduplication; and for a
uniformly colored image every entry is the hex of that color. -/
theorem palette_extraction_correct (buf : PixelBuffer) (w hgt : ℕ)
    (hw : 0 < w) (hh : 0 < hgt) :
    (extractPalette buf w hgt).length = 5 ∧
    samplePoints = [(0.2, 0.2), (0.5, 0.2), (0.8, 0.5), (0.3, 0.8), (0.7, 0.7)] ∧
    (∀ i : ℕ, (extractPalette buf w hgt)[i]? =
        (samplePoints[i]?).map (sampleHex buf w hgt)) ∧
    (∀ c : ℕ × ℕ × ℕ, (∀ x y, buf x y = c) →
        ∀ e ∈ extractPalette buf w hgt, e = (calculateColorDetails c.1 c.2.1 c.2.2).hex) := by
  refine ⟨rfl, rfl, ?_, ?_⟩
  · intro i
    rw [extractPalette, List.getElem?_map]
  · intro c hbuf e he
    rw [extractPalette] at he
    obtain ⟨p, -, hp⟩ := List.mem_map.mp he
    rw [← hp, sampleHex, hbuf]

/-- Claim C6 witness: a 3×2 uniformly colored image yields five
identical palette entries. -/
theorem palette_extraction_correct_witness :
    (extractPalette (fun (_ _ : ℕ) => ((10, 20, 30) : ℕ × ℕ × ℕ)) 3 2).length = 5 ∧
    (extractPalette (fun (_ _ : ℕ) => ((10, 20, 30) : ℕ × ℕ × ℕ)) 3 2)[0]? =
      (samplePoints[0]?).map (sampleHex (fun (_ _ : ℕ) => ((10, 20, 30) : ℕ × ℕ × ℕ)) 3 2) ∧
    sampleHex (fun (_ _ : ℕ) => ((10, 20, 30) : ℕ × ℕ × ℕ)) 3 2 (0.2, 0.2) =
      (calculateColorDetails 10 20 30).hex :=
  ⟨(palette_extraction_correct (fun (_ _ : ℕ) => ((10, 20, 30) : ℕ × ℕ × ℕ)) 3 2
      (by decide) (by decide)).1,
   (palette_extraction_correct (fun (_ _ : ℕ) => ((10, 20, 30) : ℕ × ℕ × ℕ)) 3 2
      (by decide) (by decide)).2.2.1 0,
   (palette_extraction_correct (fun (_ _ : ℕ) => ((10, 20, 30) : ℕ × ℕ × ℕ)) 3 2
      (by decide) (by decide)).2.2.2 (10, 20, 30) (fun _ _ => rfl) _
      (List.mem_map_of_mem _ (List.mem_cons_self _ _))⟩

/-! ## CMYK theorem -/

/-- Claim C7: the CMYK computation substitutes `0` for each of C, M, Y
when `K = 1` (avoiding the `0/0` division for pure black), pure black
yields the string `"0, 0, 0, 100"`, and all four rounded components lie
in `[0, 100]` for every valid input. -/
theorem cmyk_correct :
    (calculateColorDetails 0 0 0).cmyk = "0, 0, 0, 100" ∧
    (∀ r g b : ℕ, kVal r g b = 1 →
        cmyVal r r g b = 0 ∧ cmyVal g r g b = 0 ∧ cmyVal b r g b = 0) ∧
    (∀ r g b : ℕ, r ≤ 255 → g ≤ 255 → b ≤ 255 →
        0 ≤ (cmykInts r g b).1 ∧ (cmykInts r g b).1 ≤ 100 ∧
        0 ≤ (cmykInts r g b).2.1 ∧ (cmykInts r g b).2.1 ≤ 100 ∧
        0 ≤ (cmykInts r g b).2.2.1 ∧ (cmykInts r g b).2.2.1 ≤ 100 ∧
        0 ≤ (cmykInts r g b).2.2.2 ∧ (cmykInts r g b).2.2.2 ≤ 100) := by
  refine ⟨by with_unfolding_all decide, ?_, ?_⟩
  · intro r g b hk
    refine ⟨?_, ?_, ?_⟩ <;> rw [cmyVal, if_pos hk]
  · intro r g b hr hg hb
    obtain ⟨hc0, hc1⟩ := cmyVal_bounds (normChan_le_maxChan_left r g b)
    obtain ⟨hm0, hm1⟩ := cmyVal_bounds (normChan_le_maxChan_mid r g b)
    obtain ⟨hy0, hy1⟩ := cmyVal_bounds (normChan_le_maxChan_right r g b)
    obtain ⟨hk0, hk1⟩ := kVal_bounds hr hg hb
    exact ⟨jsRound_nonneg (by nlinarith), jsRound_le (by push_cast; nlinarith),
      jsRound_nonneg (by nlinarith), jsRound_le (by push_cast; nlinarith),
      jsRound_nonneg (by nlinarith), jsRound_le (by push_cast; nlinarith),
      jsRound_nonneg (by nlinarith), jsRound_le (by push_cast; nlinarith)⟩

/-- Claim C7 witness: the K = 1 substitution and the range bounds at
pure black, and the bounds at the default color. -/
theorem cmyk_correct_witness :
    (cmyVal 0 0 0 0 = 0 ∧ cmyVal 0 0 0 0 = 0 ∧ cmyVal 0 0 0 0 = 0) ∧
    (0 ≤ (cmykInts 99 102 241).1 ∧ (cmykInts 99 102 241).1 ≤ 100 ∧
     0 ≤ (cmykInts 99 102 241).2.1 ∧ (cmykInts 99 102 241).2.1 ≤ 100 ∧
     0 ≤ (cmykInts 99 102 241).2.2.1 ∧ (cmykInts 99 102 241).2.2.1 ≤ 100 ∧
     0 ≤ (cmykInts 99 102 241).2.2.2 ∧ (cmykInts 99 102 241).2.2.2 ≤ 100) :=
  ⟨cmyk_correct.2.1 0 0 0 (by with_unfolding_all decide),
   cmyk_correct.2.2 99 102 241 (by decide) (by decide) (by decide)⟩

/-! ## Contrast theorem -/

/-- Claim C8: on black the contrast ratio against black is exactly 1
(so `toFixed(2)` renders "1.00") and `isDark` holds; on white the
contrast ratio against white is exactly 1 and `isDark` fails; with
ratio vs black `(L+0.05)/0.05`, ratio vs white `1.05/(L+0.05)` and
`isDark = L < 0.5` over the WCAG relative luminance `L`, exactly as the
definitions above state. -/
theorem contrast_black_white :
    ratioVsBlack 0 0 0 = 1 ∧ isDark 0 0 0 ∧
    ratioVsWhite 255 255 255 = 1 ∧ ¬ isDark 255 255 255 := by
  have h0 : getL 0 = 0 := by
    rw [getL]
    norm_num
  have h255 : getL 255 = 1 := by
    rw [getL]
    norm_num
  have hl0 : luminance 0 0 0 = 0 := by
    rw [luminance, h0]
    ring
  have hl1 : luminance 255 255 255 = 1 := by
    rw [luminance, h255]
    norm_num
  refine ⟨?_, ?_, ?_, ?_⟩
  · rw [ratioVsBlack, hl0]
    norm_num
  · rw [isDark, hl0]
    norm_num
  · rw [ratioVsWhite, hl1]
    norm_num
  · rw [isDark, hl1]
    norm_num

/-! ## The `ColorData` consistency invariant -/

/-- Claim C9 (code bug): every `ColorData` the session constructs after
mount is converter output, but the hand-assembled initial literal is
not: the converter at its own rgb `(99, 102, 241)` agrees on `hex` and
`hsl` but produces cmyk `"59, 58, 0, 5"`, while the literal says
`"60, 58, 0, 5"` (the cyan component was miscomputed by hand:
`(241-99)/241 = 0.589… → 59`, not `60`). -/
theorem initial_colordata_inconsistent :
    (calculateColorDetails 99 102 241).hex = "#6366f1" ∧
    (calculateColorDetails 99 102 241).hsl = ⟨239, 84, 67⟩ ∧
    (calculateColorDetails 99 102 241).cmyk = "59, 58, 0, 5" ∧
    initialColorData.cmyk = "60, 58, 0, 5" ∧
    initialColorData ≠ calculateColorDetails 99 102 241 ∧
    (∀ (e : Event) (st : SessionState),
        (step e st).colorData = st.colorData ∨
        ∃ r g b : ℕ, (step e st).colorData = calculateColorDetails r g b) := by
  refine ⟨by with_unfolding_all decide, by with_unfolding_all decide,
    by with_unfolding_all decide, rfl, by with_unfolding_all decide, ?_⟩
  intro e st
  cases e with
  | loadImage img => exact Or.inl rfl
  | imageLoaded buf w hgt =>
      left
      simp only [step]
      split_ifs <;> rfl
  | escapeKey =>
      left
      simp only [step]
      split_ifs <;> rfl
  | restartProject =>
      left
      simp only [step]
      split_ifs <;> rfl
  | resetProject =>
      left
      simp only [step]
      split_ifs <;> rfl
  | pick r g b =>
      by_cases him : st.image.isSome
      · exact Or.inr ⟨r, g, b, by simp [step, him]⟩
      · left
        simp [step, him]
  | paletteClick hex =>
      by_cases him : st.image.isSome
      · exact Or.inr ⟨(swatchChannels hex).1, (swatchChannels hex).2.1,
          (swatchChannels hex).2.2, by simp [step, him]⟩
      · left
        simp [step, him]
  | historyClick hex =>
      by_cases him : st.image.isSome
      · exact Or.inr ⟨(swatchChannels hex).1, (swatchChannels hex).2.1,
          (swatchChannels hex).2.2, by simp [step, him]⟩
      · left
        simp [step, him]
  | adjust h s l => exact Or.inr ⟨_, _, _, rfl⟩

/-! ## HSL round-trip theorems -/

/-- Claim C2 counterexample: the valid slider triple `(120, 100, 0)`
(pure green hue at zero lightness) converts to RGB `(0, 0, 0)`, which
reads back as hsl `(0, 0, 0)`: the hue is off by 120, far beyond the
claimed ±1. -/
theorem hsl_roundtrip_fails_at_zero_lightness :
    roundTripHSL 120 100 0 = ⟨0, 0, 0⟩ ∧
    ¬ ((120 : ℤ) - (roundTripHSL 120 100 0).h ≤ 1) := by
  with_unfolding_all decide

set_option maxRecDepth 100000 in
/-- Claim C2 (amended): the ±1 round-trip fails in general — whenever
rounding to integer RGB collapses the chroma (lightness near 0 or 100,
or low saturation), the hue and even the saturation are lost (see
`hsl_roundtrip_fails_at_zero_lightness`).  On inputs whose chroma
survives quantisation it does hold; exhaustively, for every integer hue
`h ∈ [0, 360)` at full saturation and mid lightness `(s, l) = (100, 50)`
the round-trip reproduces `h` within ±1 and `s` and `l` exactly. -/
theorem hsl_roundtrip_saturated_midlightness :
    ∀ h : ℕ, h < 360 →
      (roundTripHSL h 100 50).h - h ≤ 1 ∧ (h : ℤ) - (roundTripHSL h 100 50).h ≤ 1 ∧
      (roundTripHSL h 100 50).s = 100 ∧ (roundTripHSL h 100 50).l = 50 := by
  with_unfolding_all decide

/-- Claim C2 witness: the amended round-trip at hue 200. -/
theorem hsl_roundtrip_saturated_midlightness_witness :
    (roundTripHSL (200 : ℕ) 100 50).h - (200 : ℕ) ≤ 1 ∧
    ((200 : ℕ) : ℤ) - (roundTripHSL (200 : ℕ) 100 50).h ≤ 1 ∧
    (roundTripHSL (200 : ℕ) 100 50).s = 100 ∧ (roundTripHSL (200 : ℕ) 100 50).l = 50 :=
  hsl_roundtrip_saturated_midlightness 200 (by decide)
